import Mathlib

/-!
Verification of the playback/position/spectrum subsystem of `src/mp3player.py`
(class `MP3Player`), as a shallow embedding in Lean 4.

Modelling conventions:
* The Qt table widget `self.song_table` is a `List Row` (one `Row` per table
  row, the four text columns Track/Title/Filename/Path).
* `self.songs` is a `List Song` (the dicts built by `add_files_to_playlist`).
* Scalar attributes of `MP3Player` keep their Python names as fields of `Sys`.
* The pygame mixer is modelled by three fields of `Sys`:
  - `streamActive` : `pygame.mixer.music.get_busy()` (actively rendering);
  - `elapsedMs`    : the engine clock `pygame.mixer.music.get_pos()` counts,
                     milliseconds since the last `play` call (frozen on pause);
  - `ended`        : the stream reached its natural end, in which case
                     `get_pos()` returns the `-1` sentinel (the code's own
                     comment: "get_pos() returns -1 if the music has stopped").
* `pygame.mixer.music.load` + `MP3(path).info.length` are modelled together by
  a `decode : String → Option ℚ` oracle passed to the functions that call them:
  `none` means the load/parse raises (undecodable file), `some len` means the
  load succeeds and the track has duration `len` seconds.
* Python `%` on integers with a positive modulus agrees with Lean's `Int.emod`
  (`%` on `ℤ`): both return a value in `[0, n)`; the moduli below are always
  the length of a non-empty list.
* Wall-clock time is modelled by `passTime d` (d seconds): the engine clock
  advances by `1000 * d` milliseconds exactly while the stream is active.
-/

/-- One row of `self.song_table`: the four text columns
`['Track', 'Title', 'Filename', 'Path']` (column 3 is the path). -/
structure Row where
  track : String
  title : String
  filename : String
  path : String
  deriving DecidableEq, Inhabited

/-- One entry of `self.songs`, the dict built in `add_files_to_playlist`. -/
structure Song where
  filename : String
  title : String
  track : Int
  path : String
  deriving DecidableEq, Inhabited

/-- The state of an `MP3Player` instance (the fields the core claims touch),
plus the observable state of the pygame mixer. -/
structure Sys where
  songs : List Song
  table : List Row
  current_song : Option String
  current_index : Int
  is_playing : Bool
  current_song_length : ℚ
  last_known_position : ℚ
  current_sort_column : Nat
  sort_ascending : Bool
  streamActive : Bool
  elapsedMs : ℚ
  ended : Bool
  deriving DecidableEq

/-- Python truthiness of `self.current_song` (a `str` or `None`):
`None` and the empty string are falsy. -/
def truthy : Option String → Bool
  | none => false
  | some s => s != ""

/-- `pygame.mixer.music.get_pos()`: engine milliseconds since the last `play`,
or the `-1` sentinel once the stream has naturally ended. -/
def get_pos (s : Sys) : ℚ :=
  if s.ended then -1 else s.elapsedMs

/-- Text of a row at a given column index (`self.song_table.item(row, col)`). -/
def colText (r : Row) : Nat → String
  | 0 => r.track
  | 1 => r.title
  | 2 => r.filename
  | _ => r.path

/-- Lexicographic order on character lists by code point, matching
`QString::operator<` on the ASCII data involved. -/
def charLt : List Char → List Char → Bool
  | _, [] => false
  | [], _ :: _ => true
  | a :: as, b :: bs =>
    if a.val < b.val then true
    else if b.val < a.val then false
    else charLt as bs

/-- String comparison used by `QTableWidgetItem::operator<` (text order). -/
def strLt (a b : String) : Bool := charLt a.data b.data

/-- Insert a row into an already-sorted list, after any row it ties with
(stability, matching Qt's `std::stable_sort` of table rows). -/
def insertRow (lt : Row → Row → Bool) (a : Row) : List Row → List Row
  | [] => [a]
  | b :: bs => if lt a b then a :: b :: bs else b :: insertRow lt a bs

/-- Stable insertion sort of the table rows. -/
def stableSortRows (lt : Row → Row → Bool) (l : List Row) : List Row :=
  l.foldl (fun acc x => insertRow lt x acc) []

/-- `QTableWidget.sortItems(column, order)`: stable sort of whole rows by the
text of the given column, ascending or descending. -/
def sortItems (column : Nat) (asc : Bool) (rows : List Row) : List Row :=
  stableSortRows
    (fun a b =>
      if asc then strLt (colText a column) (colText b column)
      else strLt (colText b column) (colText a column))
    rows

/-- `MP3Player.find_track_index(path)`: first table row whose path column
equals `path`, or `-1`. -/
def find_track_index (table : List Row) (p : String) : Int :=
  match table.findIdx? (fun r => r.path == p) with
  | some i => (i : Int)
  | none => -1

/-- `MP3Player.get_current_track_path()`: the path column of the row at
`current_index`, or `None` when `current_index == -1`.
(When `current_index` is neither `-1` nor a valid row, the Python code would
raise on `item(...).text()`; theorems below only quantify over states where
`current_index` is `-1` or a valid row, and this total model reads a default
row there.) -/
def get_current_track_path (s : Sys) : Option String :=
  if s.current_index != -1 then
    some ((s.table.getD s.current_index.toNat default).path)
  else none

/-- `MP3Player.sort_table(column)`. Faithful to the source, including that
`get_current_track_path` is called only AFTER `sortItems` has already
reordered the rows. -/
def sort_table (s : Sys) (column : Nat) : Sys :=
  let asc := if s.current_sort_column = column then !s.sort_ascending else true
  let s1 : Sys := { s with current_sort_column := column, sort_ascending := asc,
                           table := sortItems column asc s.table }
  if s1.current_index != -1 then
    match get_current_track_path s1 with
    | some p => { s1 with current_index := find_track_index s1.table p }
    | none => s1
  else s1

/-- `MP3Player.shuffle_playlist()`. `random.shuffle(rows_data)` is modelled by
the parameter `shuffled`, the reordered row list (theorems hypothesise that it
is a permutation of the table). The current path is read BEFORE the reorder;
`self.songs` is never touched. -/
def shuffle_playlist (s : Sys) (shuffled : List Row) : Sys :=
  if s.table.length = 0 then s
  else
    let current_path := get_current_track_path s
    let s1 : Sys := { s with table := shuffled }
    match current_path with
    | some p =>
      if p = "" then s1
      else { s1 with current_index := find_track_index s1.table p }
    | none => s1

/-- `pygame.mixer.music.play(start=...)`: a fresh stream starts rendering,
the engine clock restarts from 0, any previous end condition is cleared. -/
def mixPlay (s : Sys) : Sys :=
  { s with elapsedMs := 0, streamActive := true, ended := false }

/-- `MP3Player.play_song(resume=False)`. On the non-resume path,
`pygame.mixer.music.load` + `MP3(...).info.length` are the `decode` oracle;
when it fails the `except` clause logs and sets `is_playing = False`
(`current_song` was already overwritten before the `try`). On success the
length is set, the anchor `last_known_position` is reset to 0 and playback
starts; `update_song_info` re-reads the same length (no further effect). -/
def play_song (decode : String → Option ℚ) (s : Sys) (resume : Bool) : Sys :=
  if 0 ≤ s.current_index ∧ s.current_index < (s.table.length : Int) then
    let path := (s.table.getD s.current_index.toNat default).path
    let s1 : Sys := { s with current_song := some path }
    if resume then
      { mixPlay s1 with is_playing := true }
    else
      match decode path with
      | none => { s1 with is_playing := false }
      | some len =>
        { mixPlay { s1 with current_song_length := len,
                            last_known_position := 0 } with
          is_playing := true }
  else s

/-- `MP3Player.next_song()`. -/
def next_song (decode : String → Option ℚ) (s : Sys) : Sys :=
  if s.songs ≠ [] then
    play_song decode
      { s with current_index := (s.current_index + 1) % (s.songs.length : Int) }
      false
  else s

/-- `MP3Player.previous_song()`. -/
def previous_song (decode : String → Option ℚ) (s : Sys) : Sys :=
  if s.songs ≠ [] then
    play_song decode
      { s with current_index := (s.current_index - 1) % (s.songs.length : Int) }
      false
  else s

/-- `MP3Player.check_song_end()`, the 500 ms `end_timer` tick. -/
def check_song_end (decode : String → Option ℚ) (s : Sys) : Sys :=
  if s.is_playing = true ∧ s.streamActive = false then next_song decode s else s

/-- `MP3Player.play_pause()`. Pausing calls `pygame.mixer.music.pause()`
(rendering suspends, the engine clock freezes) and clears `is_playing`;
resuming goes through `play_song(resume=True)`. -/
def play_pause (decode : String → Option ℚ) (s : Sys) : Sys :=
  if s.is_playing = false then
    if truthy s.current_song = true then play_song decode s true
    else if s.songs ≠ [] then
      play_song decode { s with current_index := 0 } false
    else s
  else
    { s with streamActive := false, is_playing := false }

/-- `MP3Player.seek_position()`. `percentage` is `self.position_slider.value()`
(an integer in 0..100). The source calls `stop()` and then
`play(start=new_position)`; the net engine effect is `mixPlay`. The anchor
`last_known_position` is set to the new offset. -/
def seek_position (s : Sys) (percentage : Nat) : Sys :=
  if truthy s.current_song = true ∧ 0 < s.current_song_length then
    let newPos : ℚ := ((percentage : ℚ) / 100) * s.current_song_length
    { mixPlay s with last_known_position := newPos, is_playing := true }
  else s

/-- `MP3Player.update_position()`, the 1000 ms `timer` tick. Returns the new
state and the absolute position the tick displays (`current_time`), `none`
when nothing is displayed. The division
`current_time / self.current_song_length` raises `ZeroDivisionError` (caught
by the `except` clause, nothing displayed) when the length is 0. -/
def update_position (s : Sys) : Sys × Option ℚ :=
  if truthy s.current_song = true ∧ s.is_playing = true then
    let ct := get_pos s / 1000
    if ct < 0 then ({ s with is_playing := false }, none)
    else if s.current_song_length = 0 then (s, none)
    else (s, some (ct + s.last_known_position))
  else (s, none)

/-- `MP3Player.passTime`: `d` seconds of wall-clock time elapse; the engine
clock advances only while the stream is actively rendering. -/
def passTime (s : Sys) (d : ℚ) : Sys :=
  if s.streamActive then { s with elapsedMs := s.elapsedMs + d * 1000 } else s

/-- The two polling timers that can observe an end of stream. -/
inductive Tick
  | posTimer
  | endTimer
  deriving DecidableEq

/-- Run one timer callback. -/
def runTick (decode : String → Option ℚ) (s : Sys) : Tick → Sys
  | Tick.posTimer => (update_position s).1
  | Tick.endTimer => check_song_end decode s

/-- Run a sequence of timer callbacks (the Qt event loop serialises them). -/
def runTicks (decode : String → Option ℚ) (s : Sys) : List Tick → Sys
  | [] => s
  | t :: ts => runTicks decode (runTick decode s t) ts

/-- The pause/resume scenario: play for `t1` seconds, pause, `p` seconds of
wall-clock pass while paused, resume, play for `t2` more seconds. -/
def pauseResumeTrace (decode : String → Option ℚ) (s : Sys) (t1 p t2 : ℚ) :
    Sys :=
  passTime (play_pause decode (passTime (play_pause decode (passTime s t1)) p))
    t2

/-!
The spectrum pipeline of `MP3Player.update_spectrum` (the pure computation
from an unpacked frame of signed 16-bit samples to the plotted array; reading
the capture stream and drawing are I/O around it). numpy's float arithmetic
is modelled over the real numbers.
-/

/-- Bin `k` of `np.fft.fft(data_np)`: the discrete Fourier transform of the
frame, `X k = Σ n, x n · exp(-2πi·k·n/N)`. -/
noncomputable def fftBin (v : List Int) (k : Nat) : ℂ :=
  ∑ n ∈ Finset.range v.length,
    ((v.getD n 0 : Int) : ℂ) *
      Complex.exp (-2 * Real.pi * Complex.I * (k : ℂ) * (n : ℂ) / (v.length : ℂ))

/-- `np.abs` of an FFT bin: the magnitude spectrum. -/
noncomputable def fftMagnitude (v : List Int) (k : Nat) : ℝ :=
  Complex.abs (fftBin v k)

/-- `20 * np.log10(magnitude + 1e-10)`: conversion to decibels. -/
noncomputable def toDb (m : ℝ) : ℝ :=
  20 * Real.logb 10 (m + (10 ^ (10 : Nat) : ℝ)⁻¹)

/-- `np.clip(x, 0, 100)`. -/
def clip0100 (x : ℝ) : ℝ := min (max x 0) 100

/-- The pure part of `MP3Player.update_spectrum` on one unpacked frame `v`
(`data_int`, of length `actual_chunk_size`): FFT, magnitudes of the first
`actual_chunk_size // 2` bins, decibel conversion, clamp to `[0, 100]`. -/
noncomputable def update_spectrum (v : List Int) : List ℝ :=
  (List.range (v.length / 2)).map fun k => clip0100 (toDb (fftMagnitude v k))

/-- A run of the 50 ms `spectrum_timer`: each captured frame is processed by
`update_spectrum`; no state is carried from one frame to the next (the handler
reads only the fresh `data` and writes only to the plot). -/
noncomputable def processFrames (fs : List (List Int)) : List (List ℝ) :=
  fs.map update_spectrum

/-!
Concrete fixtures used by witnesses and counterexamples: a two-track playlist
(paths "a" and "b"), a decode oracle that knows both files, and one where "b"
is undecodable.
-/

/-- Table row of track "a". -/
def rowA : Row := { track := "1", title := "A", filename := "a.mp3", path := "a" }

/-- Table row of track "b". -/
def rowB : Row := { track := "2", title := "B", filename := "b.mp3", path := "b" }

/-- Playlist entry of track "a". -/
def songA : Song := { filename := "a.mp3", title := "A", track := 1, path := "a" }

/-- Playlist entry of track "b". -/
def songB : Song := { filename := "b.mp3", title := "B", track := 2, path := "b" }

/-- Decode oracle: "a" is a 200 s track, "b" a 300 s track. -/
def decA : String → Option ℚ :=
  fun p => if p = "a" then some 200 else if p = "b" then some 300 else none

/-- Decode oracle: "a" decodes (200 s), "b" is undecodable. -/
def decBbad : String → Option ℚ :=
  fun p => if p = "a" then some 200 else none

/-- A player currently playing track "a" (row 0) of the two-track playlist. -/
def sysPlayingA : Sys :=
  { songs := [songA, songB], table := [rowA, rowB],
    current_song := some "a", current_index := 0, is_playing := true,
    current_song_length := 200, last_known_position := 0,
    current_sort_column := 0, sort_ascending := true,
    streamActive := true, elapsedMs := 5000, ended := false }

/-- The same player just after track "a" reached its natural end of stream:
the mixer is no longer busy, `get_pos()` reports the `-1` sentinel. -/
def sysEnded : Sys :=
  { sysPlayingA with streamActive := false, ended := true }

/-- The player with a loaded playlist but nothing current yet
(`current_index = -1`, the startup state). -/
def sysIdleNeg : Sys :=
  { sysPlayingA with current_index := -1, current_song := none,
                     is_playing := false, streamActive := false }

/-- The player while "a" is playing, after the user selected row 1
(`play_selected_song` sets `current_index` before `play_song` runs). -/
def sysSelB : Sys := { sysPlayingA with current_index := 1 }

/-!
Helper lemmas about `play_song`, `next_song` and `previous_song`.
-/

/-- `play_song` never touches `self.songs`. -/
theorem play_song_songs (decode : String → Option ℚ) (s : Sys) (r : Bool) :
    (play_song decode s r).songs = s.songs := by
  unfold play_song
  split
  · split
    · rfl
    · dsimp only
      split <;> rfl
  · rfl

/-- `play_song` never touches `self.current_index`. -/
theorem play_song_index (decode : String → Option ℚ) (s : Sys) (r : Bool) :
    (play_song decode s r).current_index = s.current_index := by
  unfold play_song
  split
  · split
    · rfl
    · dsimp only
      split <;> rfl
  · rfl

/-- `next_song` never touches `self.songs`. -/
theorem next_song_songs (decode : String → Option ℚ) (s : Sys) :
    (next_song decode s).songs = s.songs := by
  unfold next_song
  split
  · rw [play_song_songs]
  · rfl

/-- On a non-empty playlist, `next_song` sets
`current_index = (current_index + 1) % len(songs)`. -/
theorem next_song_index (decode : String → Option ℚ) (s : Sys)
    (h : s.songs ≠ []) :
    (next_song decode s).current_index =
      (s.current_index + 1) % (s.songs.length : Int) := by
  unfold next_song
  rw [if_pos h, play_song_index]

/-- On a non-empty playlist, `previous_song` sets
`current_index = (current_index - 1) % len(songs)`. -/
theorem previous_song_index (decode : String → Option ℚ) (s : Sys)
    (h : s.songs ≠ []) :
    (previous_song decode s).current_index =
      (s.current_index - 1) % (s.songs.length : Int) := by
  unfold previous_song
  rw [if_pos h, play_song_index]

/-- Reducing the left summand of an integer sum modulo `n` does not change
the sum modulo `n`. -/
theorem emod_add_left_emod (a b n : Int) : (a % n + b) % n = (a + b) % n := by
  rw [Int.add_emod, Int.emod_emod_of_dvd _ dvd_rfl, ← Int.add_emod]

/-- C1 (status: code_bug). Concrete run refuting the claim for `sort_table`:
the player is playing track "a" at row 0; clicking column 0 toggles the sort
to descending and moves "a" to row 1, but `sort_table` reads the current path
only after `sortItems` has reordered the table, so `current_index` stays 0 and
now denotes track "b" — the identity of the playing track is not preserved.
(`shuffle_playlist`, which reads the path before reordering, relocates the
index correctly on the same data: the last two conjuncts.) -/
theorem sort_table_mislocates_current_index :
    sysPlayingA.current_index = 0 ∧
    (sysPlayingA.table.getD 0 default).path = "a" ∧
    (sort_table sysPlayingA 0).current_index = 0 ∧
    ((sort_table sysPlayingA 0).table.getD 0 default).path = "b" ∧
    ((sort_table sysPlayingA 0).table.getD 1 default).path = "a" ∧
    (shuffle_playlist sysPlayingA [rowB, rowA]).current_index = 1 ∧
    ((shuffle_playlist sysPlayingA [rowB, rowA]).table.getD 1 default).path
      = "a" := by
  with_unfolding_all decide

/-- C2 counterexample. While track "a" is playing (`is_playing = True`,
`current_song = "a"`), `play_song` on the undecodable track "b" (row 1)
changes `current_song` to "b" and `is_playing` to `False`, and returns
normally instead of propagating a decode error — so the prior track's
playback state is not unchanged. -/
theorem play_song_decode_failure_counterexample :
    sysSelB.is_playing = true ∧
    sysSelB.current_song = some "a" ∧
    (play_song decBbad sysSelB false).is_playing = false ∧
    (play_song decBbad sysSelB false).current_song = some "b" := by
  with_unfolding_all decide

/-- C2 as amended. When the track at `current_index` fails to decode,
`play_song` catches the error: it returns normally (no exception propagates)
with `current_song` set to the failed path and `is_playing = False`, while
`current_song_length`, `last_known_position` and every other field keep their
prior values. -/
theorem play_song_decode_failure_contained (decode : String → Option ℚ)
    (s : Sys) (h0 : 0 ≤ s.current_index)
    (h1 : s.current_index < (s.table.length : Int))
    (hd : decode ((s.table.getD s.current_index.toNat default).path) = none) :
    play_song decode s false =
      { s with
        current_song := some ((s.table.getD s.current_index.toNat default).path),
        is_playing := false } := by
  unfold play_song
  rw [if_pos ⟨h0, h1⟩]
  dsimp only
  rw [if_neg Bool.false_ne_true, hd]

/-- C2 witness: the amended statement applied to the concrete failing load. -/
theorem play_song_decode_failure_contained_witness :
    play_song decBbad sysSelB false =
      { sysSelB with
        current_song :=
          some ((sysSelB.table.getD sysSelB.current_index.toNat default).path),
        is_playing := false } :=
  play_song_decode_failure_contained decBbad sysSelB (by decide) (by decide)
    (by decide)

/-- C3 (status: code_bug). After track "a" (row 0 of a 2-track playlist) ends
naturally, the two polling timers race. If the 500 ms end-check tick runs
first, the playlist advances exactly once (`current_index` becomes 1) and
further ticks advance no further; but if the 1000 ms position tick runs first,
it sees the `-1` sentinel, clears `is_playing`, and the end-check tick then
never fires its advance: zero advances and playback halts, contradicting
"never cause zero advances". -/
theorem end_race_zero_advance :
    (runTicks decA sysEnded [Tick.posTimer, Tick.endTimer]).current_index = 0 ∧
    (runTicks decA sysEnded [Tick.posTimer, Tick.endTimer]).is_playing = false ∧
    (runTicks decA sysEnded
        [Tick.endTimer, Tick.posTimer, Tick.endTimer]).current_index = 1 ∧
    sysEnded.current_index = 0 ∧ sysEnded.is_playing = true := by
  with_unfolding_all decide

/-- C7 counterexample. On the loaded two-track playlist with nothing current
yet (`current_index = -1`, the startup state), composing `next_song`
`len(songs) = 2` times yields `current_index = 1`, not the original `-1`:
the n-fold-advance circularity fails from the no-track state. -/
theorem advance_cycle_counterexample :
    sysIdleNeg.songs.length = 2 ∧
    sysIdleNeg.current_index = -1 ∧
    ((next_song decA)^[2] sysIdleNeg).current_index = 1 := by
  with_unfolding_all decide

/-- Composing `next_song` `k+1` times on a non-empty playlist adds `k+1` to
`current_index` modulo the playlist length, and never touches `self.songs`. -/
theorem next_song_iterate (decode : String → Option ℚ) (k : Nat) :
    ∀ s : Sys, s.songs ≠ [] →
      ((next_song decode)^[k + 1] s).current_index =
        (s.current_index + ((k : Int) + 1)) % (s.songs.length : Int) ∧
      ((next_song decode)^[k + 1] s).songs = s.songs := by
  induction k with
  | zero =>
    intro s h
    rw [Function.iterate_one]
    refine ⟨?_, next_song_songs decode s⟩
    rw [next_song_index decode s h]
    norm_num
  | succ k ih =>
    intro s h
    have hs : (next_song decode s).songs = s.songs := next_song_songs decode s
    obtain ⟨ih1, ih2⟩ := ih (next_song decode s) (hs ▸ h)
    constructor
    · rw [Function.iterate_succ_apply, ih1, hs, next_song_index decode s h,
        emod_add_left_emod]
      push_cast
      ring_nf
    · rw [Function.iterate_succ_apply, ih2, hs]

/-- C7 as amended. On a non-empty playlist of length `n`, `next_song` sets
`current_index` to `(current_index + 1) mod n` and `previous_song` to
`(current_index - 1) mod n`, wrapping circularly; composing `next_song`
`n` times returns `current_index` to its original value whenever a track is
current (`0 ≤ current_index < n`) — from the no-track state
`current_index = -1` the n-fold composition instead ends at `n - 1`. On an
empty playlist both operations are no-ops. -/
theorem advance_retreat_mod (decode : String → Option ℚ) (s : Sys) :
    (s.songs ≠ [] →
      (next_song decode s).current_index =
        (s.current_index + 1) % (s.songs.length : Int) ∧
      (previous_song decode s).current_index =
        (s.current_index - 1) % (s.songs.length : Int) ∧
      (0 ≤ s.current_index → s.current_index < (s.songs.length : Int) →
        ((next_song decode)^[s.songs.length] s).current_index =
          s.current_index)) ∧
    (s.songs = [] → next_song decode s = s ∧ previous_song decode s = s) := by
  constructor
  · intro h
    refine ⟨next_song_index decode s h, previous_song_index decode s h, ?_⟩
    intro h0 h1
    obtain ⟨m, hm⟩ : ∃ m, s.songs.length = m + 1 :=
      ⟨s.songs.length - 1, by have := List.length_pos.mpr h; omega⟩
    have key := (next_song_iterate decode m s h).1
    rw [hm, key]
    have hcast : ((m : Int) + 1) = (s.songs.length : Int) := by
      rw [hm]; push_cast; ring
    rw [hcast]
    have hself := Int.add_mul_emod_self_left (a := s.current_index)
      (b := (s.songs.length : Int)) (c := 1)
    rw [mul_one] at hself
    rw [hself]
    exact Int.emod_eq_of_lt h0 h1
  · intro h
    constructor
    · unfold next_song
      simp [h]
    · unfold previous_song
      simp [h]

/-- C7 witness: on the concrete two-track playlist playing row 0, advancing
and retreating wrap modulo 2 and advancing twice returns to row 0. -/
theorem advance_retreat_mod_witness :
    (next_song decA sysPlayingA).current_index =
      (sysPlayingA.current_index + 1) % (sysPlayingA.songs.length : Int) ∧
    (previous_song decA sysPlayingA).current_index =
      (sysPlayingA.current_index - 1) % (sysPlayingA.songs.length : Int) ∧
    ((next_song decA)^[sysPlayingA.songs.length] sysPlayingA).current_index =
      sysPlayingA.current_index := by
  obtain ⟨h1, h2, h3⟩ := (advance_retreat_mod decA sysPlayingA).1 (by decide)
  exact ⟨h1, h2, h3 (by decide) (by decide)⟩

/-- C5. On a position tick with a current, playing track of non-zero length:
if the engine clock is non-negative, the tick reports the absolute position
`elapsedMillis/1000 + last_known_position` and changes nothing; if the engine
returns the negative end sentinel, the tick only clears `is_playing` and
reports no position. -/
theorem update_position_report (s : Sys)
    (hsong : truthy s.current_song = true) (hp : s.is_playing = true)
    (hlen : s.current_song_length ≠ 0) :
    (get_pos s < 0 →
      update_position s = ({ s with is_playing := false }, none)) ∧
    (0 ≤ get_pos s →
      update_position s =
        (s, some (get_pos s / 1000 + s.last_known_position))) := by
  constructor
  · intro hneg
    unfold update_position
    rw [if_pos ⟨hsong, hp⟩]
    dsimp only
    rw [if_pos (div_neg_of_neg_of_pos hneg (by norm_num))]
  · intro hpos
    unfold update_position
    rw [if_pos ⟨hsong, hp⟩]
    dsimp only
    rw [if_neg (not_lt.mpr (div_nonneg hpos (by norm_num))), if_neg hlen]

/-- C5 witness: while playing track "a" with 5000 engine ms the tick reports
5000/1000 + 0 seconds; after the natural end (sentinel) the tick clears
`is_playing` and reports nothing. -/
theorem update_position_report_witness :
    update_position sysPlayingA =
      (sysPlayingA,
        some (get_pos sysPlayingA / 1000 + sysPlayingA.last_known_position)) ∧
    update_position sysEnded = ({ sysEnded with is_playing := false }, none) :=
  ⟨(update_position_report sysPlayingA (by decide) (by decide)
      (by with_unfolding_all decide)).2 (by with_unfolding_all decide),
   (update_position_report sysEnded (by decide) (by decide)
      (by with_unfolding_all decide)).1 (by with_unfolding_all decide)⟩

/-- C4. Play for `t1` seconds, pause, let `p` seconds of wall-clock pass,
resume, play for `t2` more seconds: the position then reported is
`t2 + last_known_position` — independent of the paused duration `p` (and of
`t1`: the source resumes with `play(start=last_known_position)`, so no paused
wall-clock time is ever counted) — and neither pausing nor resuming modifies
the offset anchor `last_known_position`. -/
theorem pause_resume_excludes_paused_time (decode : String → Option ℚ)
    (s : Sys) (t1 p t2 : ℚ)
    (hplay : s.is_playing = true) (hact : s.streamActive = true)
    (hsong : truthy s.current_song = true)
    (h0 : 0 ≤ s.current_index) (h1 : s.current_index < (s.table.length : Int))
    (hpath : (s.table.getD s.current_index.toNat default).path ≠ "")
    (hlen : s.current_song_length ≠ 0) (ht2 : 0 ≤ t2) :
    (update_position (pauseResumeTrace decode s t1 p t2)).2 =
      some (t2 + s.last_known_position) ∧
    (play_pause decode (passTime s t1)).last_known_position =
      s.last_known_position ∧
    (pauseResumeTrace decode s t1 p t2).last_known_position =
      s.last_known_position := by
  have e1 : passTime s t1 = { s with elapsedMs := s.elapsedMs + t1 * 1000 } := by
    simp [passTime, hact]
  have e2 : play_pause decode (passTime s t1) =
      { s with elapsedMs := s.elapsedMs + t1 * 1000, streamActive := false,
               is_playing := false } := by
    rw [e1]
    simp [play_pause, hplay]
  have e3 : passTime (play_pause decode (passTime s t1)) p =
      { s with elapsedMs := s.elapsedMs + t1 * 1000, streamActive := false,
               is_playing := false } := by
    rw [e2]
    simp [passTime]
  have e4 : play_pause decode (passTime (play_pause decode (passTime s t1)) p) =
      { s with current_song :=
                 some ((s.table.getD s.current_index.toNat default).path),
               is_playing := true, elapsedMs := 0, streamActive := true,
               ended := false } := by
    rw [e3]
    simp [play_pause, play_song, mixPlay, hsong, h0, h1]
  have e5 : pauseResumeTrace decode s t1 p t2 =
      { s with current_song :=
                 some ((s.table.getD s.current_index.toNat default).path),
               is_playing := true, elapsedMs := t2 * 1000, streamActive := true,
               ended := false } := by
    unfold pauseResumeTrace
    rw [e4]
    simp [passTime]
  refine ⟨?_, by rw [e2], by rw [e5]⟩
  rw [e5]
  unfold update_position get_pos
  have htr : truthy (some ((s.table.getD s.current_index.toNat default).path))
      = true := by
    simp only [truthy, bne_iff_ne, ne_eq, decide_not]
    simpa using hpath
  rw [if_pos ⟨htr, rfl⟩]
  dsimp only
  have hct : (t2 * 1000: ℚ) / 1000 = t2 := by
    field_simp
  rw [if_neg Bool.false_ne_true, hct, if_neg (not_lt.mpr ht2), if_neg hlen]

/-- C4 witness: play 7 s, pause, 10 s pass while paused, resume, play 3 s;
the reported position is 3 + the anchor, and the anchor is untouched. -/
theorem pause_resume_excludes_paused_time_witness :
    (update_position (pauseResumeTrace decA sysPlayingA 7 10 3)).2 =
      some (3 + sysPlayingA.last_known_position) ∧
    (play_pause decA (passTime sysPlayingA 7)).last_known_position =
      sysPlayingA.last_known_position ∧
    (pauseResumeTrace decA sysPlayingA 7 10 3).last_known_position =
      sysPlayingA.last_known_position :=
  pause_resume_excludes_paused_time decA sysPlayingA 7 10 3 (by decide)
    (by decide) (by decide) (by decide) (by decide) (by decide)
    (by with_unfolding_all decide) (by with_unfolding_all decide)

/-- C6. Releasing the slider at `percentage` (an integer in 0..100, so at the
fraction `f = percentage/100 ∈ [0,1]`) on a loaded track of positive duration
sets the anchor `last_known_position` to `f · current_song_length`, restarts
the engine at that offset (the source calls `stop()` then
`play(start=new_position)`: clock reset, stream active, end cleared) and sets
`is_playing`; a position tick `t ≤ 1` seconds later (within one poll tick)
reports `t + f · current_song_length`, which is within 1 second of
`f · current_song_length`. -/
theorem seek_position_spec (s : Sys) (percentage : Nat) (t : ℚ)
    (hpct : percentage ≤ 100) (hsong : truthy s.current_song = true)
    (hlen : 0 < s.current_song_length) (ht0 : 0 ≤ t) (ht1 : t ≤ 1) :
    (seek_position s percentage).last_known_position =
      ((percentage : ℚ) / 100) * s.current_song_length ∧
    (seek_position s percentage).is_playing = true ∧
    (seek_position s percentage).streamActive = true ∧
    (seek_position s percentage).elapsedMs = 0 ∧
    (seek_position s percentage).ended = false ∧
    (update_position (passTime (seek_position s percentage) t)).2 =
      some (t + ((percentage : ℚ) / 100) * s.current_song_length) ∧
    |t + ((percentage : ℚ) / 100) * s.current_song_length -
        ((percentage : ℚ) / 100) * s.current_song_length| ≤ 1 := by
  have e1 : seek_position s percentage =
      { s with elapsedMs := 0, streamActive := true, ended := false,
               last_known_position :=
                 ((percentage : ℚ) / 100) * s.current_song_length,
               is_playing := true } := by
    unfold seek_position
    rw [if_pos ⟨hsong, hlen⟩]
    simp [mixPlay]
  have e2 : passTime (seek_position s percentage) t =
      { s with elapsedMs := t * 1000, streamActive := true, ended := false,
               last_known_position :=
                 ((percentage : ℚ) / 100) * s.current_song_length,
               is_playing := true } := by
    rw [e1]
    simp [passTime]
  refine ⟨by rw [e1], by rw [e1], by rw [e1], by rw [e1], by rw [e1], ?_, ?_⟩
  · rw [e2]
    unfold update_position get_pos
    rw [if_pos ⟨hsong, rfl⟩]
    dsimp only
    have hct : (t * 1000 : ℚ) / 1000 = t := by
      field_simp
    rw [if_neg Bool.false_ne_true, hct, if_neg (not_lt.mpr ht0),
      if_neg (ne_of_gt hlen)]
  · rw [add_sub_cancel_right, abs_of_nonneg ht0]
    exact ht1

/-- C6 witness: seeking to 25% of the 200 s track "a" anchors at 50 s and a
tick half a second later reports 50.5 s, within one poll tick of 50 s. -/
theorem seek_position_spec_witness :
    (seek_position sysPlayingA 25).last_known_position =
      ((25 : ℚ) / 100) * sysPlayingA.current_song_length ∧
    (seek_position sysPlayingA 25).is_playing = true ∧
    (seek_position sysPlayingA 25).streamActive = true ∧
    (seek_position sysPlayingA 25).elapsedMs = 0 ∧
    (seek_position sysPlayingA 25).ended = false ∧
    (update_position (passTime (seek_position sysPlayingA 25) (1 / 2))).2 =
      some (1 / 2 + ((25 : ℚ) / 100) * sysPlayingA.current_song_length) ∧
    |1 / 2 + ((25 : ℚ) / 100) * sysPlayingA.current_song_length -
        ((25 : ℚ) / 100) * sysPlayingA.current_song_length| ≤ 1 :=
  seek_position_spec sysPlayingA 25 (1 / 2) (by decide) (by decide)
    (by with_unfolding_all decide) (by with_unfolding_all decide)
    (by with_unfolding_all decide)

/-- C8. Every value of the spectrum frame produced by the pipeline —
FFT magnitudes of the first `N/2` bins, converted to decibels as
`20·log10(magnitude + 1e-10)` and clamped by `np.clip(·, 0, 100)` — lies in
`[0, 100]`. -/
theorem update_spectrum_range (v : List Int)
    (i : Fin (update_spectrum v).length) :
    0 ≤ (update_spectrum v).get i ∧ (update_spectrum v).get i ≤ 100 := by
  have hget : (update_spectrum v).get i = clip0100 (toDb (fftMagnitude v i.1)) := by
    simp [update_spectrum]
  constructor
  · rw [hget]
    unfold clip0100
    exact le_min (le_max_right _ _) (by norm_num)
  · rw [hget]
    unfold clip0100
    exact min_le_right _ _

/-- C9. The spectrum pipeline is stateless and deterministic across frames:
in any run over a sequence of captured frames, two positions holding
identical input frames yield identical output arrays, no matter what frames
were processed in between. -/
theorem spectrum_stateless (fs : List (List Int)) (i j : Nat)
    (h : fs.getD i [] = fs.getD j []) :
    (processFrames fs).getD i (update_spectrum []) =
      (processFrames fs).getD j (update_spectrum []) := by
  have key : ∀ m : Nat, (processFrames fs).getD m (update_spectrum []) =
      update_spectrum (fs.getD m []) := by
    intro m
    unfold processFrames
    rw [List.getD_eq_getElem?_getD, List.getElem?_map,
      List.getD_eq_getElem?_getD]
    cases fs[m]? <;> rfl
  rw [key i, key j, h]

/-- C9 witness: in the frame sequence `[[1], [2], [1]]` the identical frames
at positions 0 and 2 produce identical spectrum outputs. -/
theorem spectrum_stateless_witness :
    [[(1 : Int)], [2], [1]].getD 0 [] = [[(1 : Int)], [2], [1]].getD 2 [] ∧
    (processFrames [[(1 : Int)], [2], [1]]).getD 0 (update_spectrum []) =
      (processFrames [[(1 : Int)], [2], [1]]).getD 2 (update_spectrum []) :=
  ⟨rfl, spectrum_stateless [[(1 : Int)], [2], [1]] 0 2 rfl⟩

/-- On a fresh (non-resume) call with a valid row index, `play_song` reads
the track to play from the table row at `current_index` (whatever `decode`
then does). -/
theorem play_song_reads_table (decode : String → Option ℚ) (s : Sys)
    (h0 : 0 ≤ s.current_index)
    (h1 : s.current_index < (s.table.length : Int)) :
    (play_song decode s false).current_song =
      some ((s.table.getD s.current_index.toNat default).path) := by
  unfold play_song
  rw [if_pos ⟨h0, h1⟩]
  dsimp only
  rw [if_neg Bool.false_ne_true]
  cases decode ((s.table.getD s.current_index.toNat default).path) <;> rfl

/-- C10. `shuffle_playlist` leaves the backing `self.songs` list completely
unchanged and only permutes the displayed table rows; afterwards `next_song`
and `previous_song` still compute the wrapped index modulo `len(self.songs)`
and `play_song` still reads the track to play from the table row at
`current_index`.
(The hypothesis `hidx` restricts to the states where the Python code does not
raise while reading the current row.) -/
theorem shuffle_frame (decode : String → Option ℚ) (s : Sys)
    (shuffled : List Row) (hperm : s.table.Perm shuffled)
    (hidx : s.current_index = -1 ∨
      (0 ≤ s.current_index ∧ s.current_index < (s.table.length : Int))) :
    (shuffle_playlist s shuffled).songs = s.songs ∧
    (shuffle_playlist s shuffled).table.Perm s.table ∧
    (s.songs ≠ [] →
      (next_song decode (shuffle_playlist s shuffled)).current_index =
        ((shuffle_playlist s shuffled).current_index + 1) %
          (s.songs.length : Int)) ∧
    (s.songs ≠ [] →
      (previous_song decode (shuffle_playlist s shuffled)).current_index =
        ((shuffle_playlist s shuffled).current_index - 1) %
          (s.songs.length : Int)) ∧
    (0 ≤ (shuffle_playlist s shuffled).current_index ∧
        (shuffle_playlist s shuffled).current_index <
          ((shuffle_playlist s shuffled).table.length : Int) →
      (play_song decode (shuffle_playlist s shuffled) false).current_song =
        some (((shuffle_playlist s shuffled).table.getD
          (shuffle_playlist s shuffled).current_index.toNat default).path)) := by
  have hsongs : (shuffle_playlist s shuffled).songs = s.songs := by
    unfold shuffle_playlist
    split
    · rfl
    · dsimp only
      cases get_current_track_path s with
      | none => rfl
      | some p =>
        dsimp only
        split <;> rfl
  have htab : (shuffle_playlist s shuffled).table.Perm s.table := by
    unfold shuffle_playlist
    split
    · exact List.Perm.refl _
    · dsimp only
      cases get_current_track_path s with
      | none => exact hperm.symm
      | some p =>
        dsimp only
        split
        · exact hperm.symm
        · exact hperm.symm
  refine ⟨hsongs, htab, ?_, ?_, ?_⟩
  · intro hne
    have hx := next_song_index decode (shuffle_playlist s shuffled)
      (by rw [hsongs]; exact hne)
    rw [hsongs] at hx
    exact hx
  · intro hne
    have hx := previous_song_index decode (shuffle_playlist s shuffled)
      (by rw [hsongs]; exact hne)
    rw [hsongs] at hx
    exact hx
  · intro hg
    exact play_song_reads_table decode _ hg.1 hg.2

/-- C10 witness: shuffling the concrete two-row table into `[rowB, rowA]`
leaves `songs` unchanged, permutes the rows, and `next_song` and
`previous_song` still wrap modulo `len(songs)`. -/
theorem shuffle_frame_witness :
    (shuffle_playlist sysPlayingA [rowB, rowA]).songs = sysPlayingA.songs ∧
    (shuffle_playlist sysPlayingA [rowB, rowA]).table.Perm sysPlayingA.table ∧
    (next_song decA
        (shuffle_playlist sysPlayingA [rowB, rowA])).current_index =
      ((shuffle_playlist sysPlayingA [rowB, rowA]).current_index + 1) %
        (sysPlayingA.songs.length : Int) ∧
    (previous_song decA
        (shuffle_playlist sysPlayingA [rowB, rowA])).current_index =
      ((shuffle_playlist sysPlayingA [rowB, rowA]).current_index - 1) %
        (sysPlayingA.songs.length : Int) := by
  obtain ⟨h1, h2, h3, h4, h5⟩ := shuffle_frame decA sysPlayingA [rowB, rowA]
    (by decide) (by decide)
  exact ⟨h1, h2, h3 (by decide), h4 (by decide)⟩
